import Mathlib

/-!
Shallow embedding of the Poseidon sea-level analysis engine
(src/components/poseidon/AnalysisEngine.ts) and proofs about the claims of
its specification.

Modelling conventions:
* JavaScript numbers are modelled as exact rationals (`Rat`); timestamps
  (`Date.getTime()` values) as integers (`Int`, milliseconds).
* The transcendental library functions used by the engine (`Math.cos`,
  `Math.sin`, `Math.sqrt`) are abstracted into a `MathModel` parameter.
  Every call of `Math.cos`/`Math.sin` in the source has an argument of the
  shape `2 * Math.PI * x` with `x` a quotient of rationals, so the model
  carries `cosTau`/`sinTau` with `cosTau x` standing for `cos (2*pi*x)`.
  Theorems quantify over an arbitrary model; concrete evaluations use
  `qModel`, which agrees with the real cosine/sine at every quarter-turn
  argument and with the real square root at every perfect square - and the
  concrete inputs below are engineered so that only such points are read.
* `Array.prototype.sort` with an order comparator is stable (ECMAScript
  2019); it is modelled by the stable `List.insertionSort`.
* The presentation-only string fields `label` and `explanation` of events
  (built with `toFixed` float formatting) are omitted from the embedding;
  the numeric text inside some `id` fields (the seiche id embeds
  `freq.toFixed(4)`) is omitted for the same reason.  All fields any claim
  talks about are retained.
-/

namespace Poseidon

/-- Confidence grade of a detected event. -/
inductive Confidence where
  | Low
  | Medium
  | High
deriving DecidableEq

/-- Ordinal of a confidence grade, the confidenceLevels map of runFullAnalysis. -/
def confidenceLevel : Confidence → Nat
  | Confidence.Low => 0
  | Confidence.Medium => 1
  | Confidence.High => 2

/-- Tide-removal strategy of the AnalysisConfig. -/
inductive TideMethod where
  | harmonic
  | lowpass
deriving DecidableEq

/-- Embedded DataPoint record: timestamp in milliseconds, sea level in meters,
and originalIndex (-1 marks samples produced by gap interpolation). -/
structure DataPoint where
  timestamp : Int
  seaLevel : Rat
  originalIndex : Int
deriving DecidableEq

/-- Default data point used for (never reached in guarded code) out-of-range reads. -/
def dpDefault : DataPoint := ⟨0, 0, 0⟩

/-- Value of an event property: the properties bag holds numbers and strings. -/
inductive PropVal where
  | num (q : Rat)
  | str (s : String)
deriving DecidableEq

/-- Embedded DetectedEvent record (label and explanation omitted, see file header). -/
structure Event where
  id : String
  type : String
  startTime : Int
  endTime : Option Int := none
  peak : Option Int := none
  confidence : Confidence
  amplitude : Option Rat := none
  period : Option Rat := none
  properties : List (String × PropVal)
deriving DecidableEq

/-- Embedded AnalysisConfig record. -/
structure AnalysisConfig where
  tideRemovalMethod : TideMethod
  extremeThreshold : Rat
  confidenceThreshold : Confidence
  startTime : Option Int := none
  endTime : Option Int := none

/-- Model of the JavaScript Math functions the engine uses.  `cosTau x`
stands for `Math.cos (2 * Math.PI * x)`, `sinTau x` for
`Math.sin (2 * Math.PI * x)`, `sqrt` for `Math.sqrt`. -/
structure MathModel where
  cosTau : Rat → Rat
  sinTau : Rat → Rat
  sqrt : Rat → Rat

/-- Order on data points used by the constructor sort:
`(a, b) => a.timestamp.getTime() - b.timestamp.getTime()`. -/
def tsLe (a b : DataPoint) : Prop := a.timestamp ≤ b.timestamp

instance : DecidableRel tsLe := fun a b =>
  inferInstanceAs (Decidable (a.timestamp ≤ b.timestamp))

instance : IsTotal DataPoint tsLe := ⟨fun a b => le_total a.timestamp b.timestamp⟩

instance : IsTrans DataPoint tsLe := ⟨fun _ _ _ h h2 => le_trans h h2⟩

/-- Constructor sort of the engine: a stable sort by timestamp. -/
def sortByTimestamp (data : List DataPoint) : List DataPoint :=
  data.insertionSort tsLe

/-- Sum of a list of rationals, as the `reduce((sum, v) => sum + v, 0)` idiom. -/
def listSum (l : List Rat) : Rat := l.foldl (· + ·) 0

/-- Range filter (filterDataByTimeRange).  The source computes
`start = startTime?.getTime() || 0` and `end = endTime?.getTime() || Infinity`;
`||` also maps a present time of exactly 0 to the fallback, which is verbatim
modelled (for the start bound the fallback is the same value 0). -/
def filterDataByTimeRange (config : AnalysisConfig) (data : List DataPoint) : List DataPoint :=
  if config.startTime = none ∧ config.endTime = none then data
  else
    data.filter fun point =>
      let start : Int := config.startTime.getD 0
      let endB : Option Int :=
        match config.endTime with
        | some e => if e = 0 then none else some e
        | none => none
      decide (start ≤ point.timestamp) &&
        (match endB with
         | none => true
         | some e => decide (point.timestamp ≤ e))

/-- Median of the clipped five-sample window around `index` (smoothData body):
slice, sort ascending, take the element at floor(length / 2). -/
def median5Window (data : List DataPoint) (index : Nat) : Rat :=
  let start := index - 2
  let stop := min data.length (index + 3)
  let window := ((data.drop start).take (stop - start)).map (·.seaLevel)
  let sorted := window.insertionSort (· ≤ ·)
  sorted.getD (sorted.length / 2) 0

/-- Moving-median smoother (smoothData). -/
def smoothData (data : List DataPoint) : List DataPoint :=
  data.enum.map fun ip => { ip.2 with seaLevel := median5Window data ip.1 }

/-- Expected sampling interval in milliseconds. -/
def expectedInterval : Int := 60000

/-- Samples spliced into a gap between `prev` and `curr` (body of the fillGaps
inner loop): `steps = floor(timeDiff / interval) - 1` points at interval
spacing, with level `prev + levelDiff * j / (steps + 1)` and originalIndex -1,
for `j = 1 .. steps`. -/
def gapFillSamples (prev curr : DataPoint) : List DataPoint :=
  let timeDiff := curr.timestamp - prev.timestamp
  let steps : Nat := (timeDiff / expectedInterval - 1).toNat
  let levelDiff := curr.seaLevel - prev.seaLevel
  (List.range steps).map fun j0 =>
    let j : Nat := j0 + 1
    { timestamp := prev.timestamp + (j : Int) * expectedInterval
      seaLevel := prev.seaLevel + levelDiff * (j : Rat) / ((steps : Rat) + 1)
      originalIndex := -1 }

/-- Direct embedding of the imperative fillGaps loop: at index `i` the pair
`(result[i-1], result[i])` is inspected; on a gap the interpolated samples are
spliced in before position `i` and the index jumps past them
(`i += steps` plus the loop increment). -/
def fillGapsLoop (result : List DataPoint) (i : Nat) : List DataPoint :=
  if h : i < result.length then
    if (result.getD i dpDefault).timestamp - (result.getD (i - 1) dpDefault).timestamp >
        expectedInterval * 2 then
      fillGapsLoop
        (result.take i ++
          gapFillSamples (result.getD (i - 1) dpDefault) (result.getD i dpDefault) ++
          result.drop i)
        (i + (gapFillSamples (result.getD (i - 1) dpDefault) (result.getD i dpDefault)).length + 1)
    else
      fillGapsLoop result (i + 1)
  else result
termination_by result.length - i
decreasing_by
  · simp only [List.length_append, List.length_take, List.length_drop]
    omega
  · omega

/-- Gap filler (fillGaps): runs the splice loop from index 1. -/
def fillGaps (data : List DataPoint) : List DataPoint :=
  fillGapsLoop data 1

/-- Structural form of the gap filler: walk consecutive pairs, emitting the
interpolated block between each gapped pair.  Proved equal to the splice loop
in `fillGaps_eq_rec`. -/
def fillGapsRun (prev : DataPoint) : List DataPoint → List DataPoint
  | [] => []
  | curr :: rest =>
    (if curr.timestamp - prev.timestamp > expectedInterval * 2 then
        gapFillSamples prev curr
      else []) ++ curr :: fillGapsRun curr rest

/-- Structural gap filler, top level. -/
def fillGapsRec : List DataPoint → List DataPoint
  | [] => []
  | a :: rest => a :: fillGapsRun a rest

/-- Fixed astronomical constituent periods in hours (M2, S2, K1, O1). -/
def tidalPeriods : List Rat := [1242/100, 12, 2393/100, 2582/100]

/-- Quadrature amplitude estimator (estimateAmplitude).  The source receives
`omega = 2*pi/period` and sums `values[i] * cos(omega * times[i])`, so the
cosine argument passed to the model is `times[i] / period`. -/
def estimateAmplitude (M : MathModel) (values times : List Rat) (period : Rat) : Rat :=
  let sumCos := listSum ((values.zip times).map fun vt => vt.1 * M.cosTau (vt.2 / period))
  let sumSin := listSum ((values.zip times).map fun vt => vt.1 * M.sinTau (vt.2 / period))
  M.sqrt (sumCos * sumCos + sumSin * sumSin) / ((values.length : Rat) / 2)

/-- Harmonic tidal fit (harmonicTidalFit): mean plus the four constituents. -/
def harmonicTidalFit (M : MathModel) (data : List DataPoint) : List DataPoint :=
  let values := data.map (·.seaLevel)
  let times := data.map fun p => (p.timestamp : Rat) / (1000 * 3600)
  let mean := listSum values / (values.length : Rat)
  data.enum.map fun ip =>
    let tidalValue := tidalPeriods.foldl
      (fun acc period =>
        acc + estimateAmplitude M values times period * M.cosTau (times.getD ip.1 0 / period))
      mean
    { ip.2 with seaLevel := tidalValue }

/-- Low-pass tidal filter (lowpassTidalFilter): symmetric moving average with a
240-sample half window, clipped at the boundaries. -/
def lowpassTidalFilter (data : List DataPoint) : List DataPoint :=
  let windowSize : Nat := 4 * 60
  data.enum.map fun ip =>
    let start := ip.1 - windowSize
    let stop := min data.length (ip.1 + windowSize + 1)
    let window := (data.drop start).take (stop - start)
    { ip.2 with seaLevel := listSum (window.map (·.seaLevel)) / (window.length : Rat) }

/-- Strategy dispatch (extractTidalComponent). -/
def extractTidalComponent (M : MathModel) (config : AnalysisConfig)
    (data : List DataPoint) : List DataPoint :=
  match config.tideRemovalMethod with
  | TideMethod.harmonic => harmonicTidalFit M data
  | TideMethod.lowpass => lowpassTidalFilter data

/-- Detrender (detrendData): per index, original minus tidal, a missing tidal
entry counting as 0 (the source reads `tidal[index]?.seaLevel || 0`). -/
def detrendData (original tidal : List DataPoint) : List DataPoint :=
  original.enum.map fun ip =>
    { ip.2 with
        seaLevel := ip.2.seaLevel -
          (match tidal[ip.1]? with
           | some t => t.seaLevel
           | none => 0) }

/-- Residual calculator: the same computation as the detrender. -/
def calculateResiduals (original tidal : List DataPoint) : List DataPoint :=
  detrendData original tidal

/-- Embedded SpectralAnalysis record. -/
structure SpectralAnalysis where
  frequencies : List Rat
  powers : List Rat
  dominantFrequency : Rat
  dominantPeriod : Rat
deriving DecidableEq

/-- Number of iterations of the JS loop `for (i = 0; i < n / 2; i++)` where
`n / 2` is real division: ceil(n / 2). -/
def binCount (n : Nat) : Nat := (n + 1) / 2

/-- Spectral analyzer (computeSpectralAnalysis): one power per frequency bin
`i * (0.5 / (n/2))`, power `|sum_j v_j (cos(2 pi f j) + sin(2 pi f j))| / n`;
the dominant frequency is tracked by a strict-improvement scan that skips
bin 0. -/
def computeSpectralAnalysis (M : MathModel) (data : List DataPoint) : SpectralAnalysis :=
  let values := data.map (·.seaLevel)
  let n := values.length
  let maxFreq : Rat := 1/2
  let freqStep := maxFreq / ((n : Rat) / 2)
  let frequencies := (List.range (binCount n)).map fun (i : Nat) => (i : Rat) * freqStep
  let powers := frequencies.map fun freq =>
    let power := listSum (values.enum.map fun jv =>
      jv.2 * M.cosTau (freq * (jv.1 : Rat)) + jv.2 * M.sinTau (freq * (jv.1 : Rat)))
    |power| / (n : Rat)
  let dom := (frequencies.zip powers).foldl
    (fun acc fp => if fp.2 > acc.1 ∧ fp.1 > 0 then (fp.2, fp.1) else acc) (0, 0)
  { frequencies := frequencies
    powers := powers
    dominantFrequency := dom.2
    dominantPeriod := if dom.2 > 0 then 1 / dom.2 else 0 }

/-- Slope threshold of the tidal-phase detector, 0.02 m per sample. -/
def tideThreshold : Rat := 2/100

/-- Events emitted by one iteration of the tidal-phase loop at index `i`:
the peak check, the trough check and the rising/falling-phase check are
three independent `if` statements. -/
def tidalPhaseAt (tidal : List DataPoint) (i : Nat) : List Event :=
  let prev := tidal.getD (i - 1) dpDefault
  let curr := tidal.getD i dpDefault
  let next := tidal.getD (i + 1) dpDefault
  let prevSlope := curr.seaLevel - prev.seaLevel
  let nextSlope := next.seaLevel - curr.seaLevel
  (if prevSlope > tideThreshold ∧ nextSlope < -tideThreshold then
      [{ id := "high-tide-" ++ toString i
         type := "High Tide"
         startTime := curr.timestamp
         confidence := Confidence.High
         amplitude := some curr.seaLevel
         properties := [("level", PropVal.num curr.seaLevel),
                        ("slope_in", PropVal.num prevSlope),
                        ("slope_out", PropVal.num nextSlope)] }]
    else []) ++
  (if prevSlope < -tideThreshold ∧ nextSlope > tideThreshold then
      [{ id := "low-tide-" ++ toString i
         type := "Low Tide"
         startTime := curr.timestamp
         confidence := Confidence.High
         amplitude := some curr.seaLevel
         properties := [("level", PropVal.num curr.seaLevel),
                        ("slope_in", PropVal.num prevSlope),
                        ("slope_out", PropVal.num nextSlope)] }]
    else []) ++
  (if |prevSlope| > tideThreshold then
      [{ id := (if prevSlope > 0 then "rising-tide-" else "falling-tide-") ++ toString i
         type := if prevSlope > 0 then "Rising Tide" else "Falling Tide"
         startTime := prev.timestamp
         endTime := some curr.timestamp
         confidence := if |prevSlope| > tideThreshold * 2 then Confidence.High
                       else Confidence.Medium
         properties := [("slope", PropVal.num prevSlope)] }]
    else [])

/-- Tidal-phase detector (detectTidalPhases); loops i over 1 .. length - 2.
The first source parameter (the gap-filled series) is unused by the body. -/
def detectTidalPhases (_data tidal : List DataPoint) : List Event :=
  (List.range' 1 (tidal.length - 2)).flatMap (tidalPhaseAt tidal)

/-- Surge magnitude threshold in meters. -/
def surgeThreshold : Rat := 15/100

/-- Minimum run length (in samples) for a surge event. -/
def sustainedDuration : Nat := 60

/-- State of the storm-surge scan: the index, timestamp and signed level of
the run start, the running peak magnitude with its timestamp, and the
timestamp of the last sample of the run so far (`residuals[i-1]`). -/
structure SurgeRun where
  start : Nat
  startTs : Int
  startLvl : Rat
  maxSurge : Rat
  maxTime : Int
  lastTs : Int
deriving DecidableEq

/-- Storm-surge event built when a run of `duration` samples ends. -/
def surgeEvent (r : SurgeRun) (duration : Nat) : Event :=
  { id := "storm-surge-" ++ toString r.start
    type := "Storm Surge"
    startTime := r.startTs
    endTime := some r.lastTs
    peak := some r.maxTime
    confidence := if r.maxSurge > surgeThreshold * 2 then Confidence.High
                  else Confidence.Medium
    amplitude := some r.maxSurge
    properties := [("peak_amplitude", PropVal.num r.maxSurge),
                   ("duration_minutes", PropVal.num (duration : Rat)),
                   ("surge_type",
                    PropVal.str (if r.startLvl > 0 then "positive" else "negative"))] }

/-- Storm-surge scan (body of the detectStormSurges loop).  The loop ends
without flushing a still-open run. -/
def stormSurgeLoop : Nat → Option SurgeRun → List DataPoint → List Event
  | _, _, [] => []
  | i, st, p :: rest =>
    let level := |p.seaLevel|
    if level > surgeThreshold then
      match st with
      | none =>
        stormSurgeLoop (i + 1)
          (some ⟨i, p.timestamp, p.seaLevel, level, p.timestamp, p.timestamp⟩) rest
      | some r =>
        let r2 := if level > r.maxSurge
          then { r with maxSurge := level, maxTime := p.timestamp } else r
        stormSurgeLoop (i + 1) (some { r2 with lastTs := p.timestamp }) rest
    else
      match st with
      | none => stormSurgeLoop (i + 1) none rest
      | some r =>
        let duration := i - r.start
        (if duration ≥ sustainedDuration then [surgeEvent r duration] else []) ++
          stormSurgeLoop (i + 1) none rest

/-- Storm-surge detector (detectStormSurges). -/
def detectStormSurges (residuals : List DataPoint) : List Event :=
  stormSurgeLoop 0 none residuals

/-- Spectral band threshold (calculateSpectralThreshold): mean plus one
standard deviation of the power list. -/
def calculateSpectralThreshold (M : MathModel) (powers : List Rat) : Rat :=
  let mean := listSum powers / (powers.length : Rat)
  let variance := listSum (powers.map fun p => (p - mean) ^ 2) / (powers.length : Rat)
  mean + M.sqrt variance

/-- Correlation energy of a window at one frequency (calculateWindowEnergy). -/
def calculateWindowEnergy (M : MathModel) (window : List DataPoint) (frequency : Rat) : Rat :=
  let values := window.map (·.seaLevel)
  let energy := listSum (values.enum.map fun iv =>
    iv.2 * M.cosTau (frequency * (iv.1 : Rat)) + iv.2 * M.sinTau (frequency * (iv.1 : Rat)))
  |energy| / (values.length : Rat)

/-- Burst qualification threshold (calculateEnergyThreshold): half the
whole-series energy at the frequency. -/
def calculateEnergyThreshold (M : MathModel) (data : List DataPoint) (frequency : Rat) : Rat :=
  calculateWindowEnergy M data frequency * (1/2)

/-- Start indices of the strided burst windows: the values `k * stride`
below `len - w` (none when `len <= w`, as for the JS loop whose bound is then
negative). -/
def burstStarts (len w stride : Nat) : List Nat :=
  (List.range ((len - w + stride - 1) / stride)).map (· * stride)

/-- Burst localization (findEnergyBursts): windows of `max 10 (floor (2 *
period))` samples at half-window stride whose energy at the frequency exceeds
the threshold; returns (start, end) timestamps of qualifying windows. -/
def findEnergyBursts (M : MathModel) (data : List DataPoint)
    (frequency period : Rat) : List (Int × Int) :=
  let windowSize : Nat := max 10 (Int.toNat ⌊period * 2⌋)
  let stride := windowSize / 2
  (burstStarts data.length windowSize stride).filterMap fun i =>
    let window := (data.drop i).take windowSize
    if calculateWindowEnergy M window frequency >
        calculateEnergyThreshold M data frequency then
      some ((window.getD 0 dpDefault).timestamp,
            (window.getD (window.length - 1) dpDefault).timestamp)
    else none

/-- Seiche detector (detectSeiches).  The numeric part of the source id,
`freq.toFixed(4)`, is omitted (float formatting). -/
def detectSeiches (M : MathModel) (residuals : List DataPoint) : List Event :=
  let spectral := computeSpectralAnalysis M residuals
  (spectral.frequencies.zip spectral.powers).flatMap fun fp =>
    if fp.1 ≥ 1/30 ∧ fp.1 ≤ 1/5 then
      let power := fp.2
      let threshold := calculateSpectralThreshold M spectral.powers * 2
      if power > threshold then
        let period := 1 / fp.1
        let confidence := if power > threshold * (3/2) then Confidence.High
                          else Confidence.Medium
        (findEnergyBursts M residuals fp.1 period).enum.map fun ib =>
          { id := "seiche-" ++ toString ib.1
            type := "Seiche"
            startTime := ib.2.1
            endTime := some ib.2.2
            confidence := confidence
            period := some period
            properties := [("frequency", PropVal.num fp.1),
                           ("spectral_power", PropVal.num power),
                           ("estimated_period", PropVal.num period)] }
      else []
    else []

/-- Infragravity detector (detectInfragravityWaves).  The accumulator mirrors
the three mutable variables (totalIgEnergy, maxPower, dominantFreq).  The
source computes `dominantPeriod = 1 / dominantFreq` which is Infinity when no
positive-power bin exists; in the rational model that division yields 0. -/
def detectInfragravityWaves (M : MathModel) (residuals : List DataPoint) : List Event :=
  let spectral := computeSpectralAnalysis M residuals
  let igFreqMax : Rat := 1/2
  let acc := (spectral.frequencies.zip spectral.powers).foldl
    (fun acc fp =>
      if fp.1 ≤ igFreqMax ∧ fp.1 > 0 then
        let tot := acc.1 + fp.2
        if fp.2 > acc.2.1 then (tot, (fp.2, fp.1)) else (tot, acc.2)
      else acc)
    (0, (0, 0))
  let totalIgEnergy := acc.1
  let dominantFreq := acc.2.2
  let threshold := calculateSpectralThreshold M spectral.powers
  if totalIgEnergy > threshold then
    [{ id := "infragravity-waves"
       type := "Infragravity"
       startTime := (residuals.getD 0 dpDefault).timestamp
       endTime := some ((residuals.getD (residuals.length - 1) dpDefault).timestamp)
       confidence := if totalIgEnergy > threshold * 2 then Confidence.High
                     else Confidence.Medium
       period := some (1 / dominantFreq)
       properties := [("total_energy", PropVal.num totalIgEnergy),
                      ("dominant_frequency", PropVal.num dominantFreq),
                      ("band_max_freq", PropVal.num igFreqMax)] }]
  else []

/-- Spike sub-detector of detectDataArtifacts: consecutive jumps above 0.5 m. -/
def spikeEvents (data : List DataPoint) : List Event :=
  (List.range' 1 (data.length - 1)).filterMap fun i =>
    let prev := data.getD (i - 1) dpDefault
    let curr := data.getD i dpDefault
    let change := |curr.seaLevel - prev.seaLevel|
    if change > 1/2 then
      some { id := "spike-" ++ toString i
             type := "Spike"
             startTime := curr.timestamp
             confidence := Confidence.High
             amplitude := some change
             properties := [("magnitude", PropVal.num change),
                            ("previous_level", PropVal.num prev.seaLevel),
                            ("current_level", PropVal.num curr.seaLevel)] }
    else none

/-- State of the flatline scan: start index, its timestamp and the constant
value. -/
structure FlatRun where
  start : Nat
  startTs : Int
  value : Rat
deriving DecidableEq

/-- Flatline event built when a constant run of `duration` samples ends. -/
def flatlineEvent (r : FlatRun) (duration : Nat) (endTs : Int) : Event :=
  { id := "flatline-" ++ toString r.start
    type := "Flatline"
    startTime := r.startTs
    endTime := some endTs
    confidence := Confidence.High
    properties := [("constant_value", PropVal.num r.value),
                   ("duration_minutes", PropVal.num (duration : Rat))] }

/-- Flatline scan of detectDataArtifacts; like the surge loop it never flushes
a still-open run at the end. -/
def flatlineLoop : Nat → DataPoint → Option FlatRun → List DataPoint → List Event
  | _, _, _, [] => []
  | i, prev, st, curr :: rest =>
    let change := |curr.seaLevel - prev.seaLevel|
    if change ≤ 1/1000 then
      match st with
      | none => flatlineLoop (i + 1) curr (some ⟨i - 1, prev.timestamp, prev.seaLevel⟩) rest
      | some r => flatlineLoop (i + 1) curr (some r) rest
    else
      match st with
      | none => flatlineLoop (i + 1) curr none rest
      | some r =>
        let duration := i - r.start
        (if duration ≥ 30 then [flatlineEvent r duration prev.timestamp] else []) ++
          flatlineLoop (i + 1) curr none rest

/-- Data-artifact detector (detectDataArtifacts): spikes then flatlines. -/
def detectDataArtifacts (data : List DataPoint) : List Event :=
  spikeEvents data ++
    (match data with
     | [] => []
     | d0 :: rest => flatlineLoop 1 d0 none rest)

/-- Extreme-level detector (detectExtremeLevels).  The percentile indices are
`floor(n * 0.01)` and `floor(n * 0.99)` on the sorted level list. -/
def detectExtremeLevels (config : AnalysisConfig) (data : List DataPoint) : List Event :=
  let levels := data.map (·.seaLevel)
  let mean := listSum levels / (levels.length : Rat)
  let sorted := levels.insertionSort (· ≤ ·)
  let p1 := sorted.getD (levels.length / 100) 0
  let p99 := sorted.getD (levels.length * 99 / 100) 0
  let threshold := config.extremeThreshold
  data.filterMap fun point =>
    if point.seaLevel ≤ p1 ∨ point.seaLevel ≥ p99 ∨
        |point.seaLevel - mean| > threshold then
      some { id := "extreme-" ++ toString point.timestamp
             type := "Extreme Level"
             startTime := point.timestamp
             confidence := if |point.seaLevel - mean| > threshold * (3/2)
                           then Confidence.High else Confidence.Medium
             amplitude := some |point.seaLevel - mean|
             properties :=
               [("level", PropVal.num point.seaLevel),
                ("deviation_from_mean", PropVal.num (point.seaLevel - mean)),
                ("percentile",
                 PropVal.str (if point.seaLevel ≤ p1 then "1st"
                              else if point.seaLevel ≥ p99 then "99th"
                              else "threshold"))] }
    else none

/-- Moving variance over sliding windows (calculateMovingVariance); one value
per start index below `len - windowSize`. -/
def calculateMovingVariance (data : List DataPoint) (windowSize : Nat) : List Rat :=
  (List.range (data.length - windowSize)).map fun i =>
    let window := ((data.drop i).take windowSize).map (·.seaLevel)
    let mean := listSum window / (window.length : Rat)
    listSum (window.map fun v => (v - mean) ^ 2) / (window.length : Rat)

/-- Two-sigma threshold over the variance list (calculateVarianceThreshold). -/
def calculateVarianceThreshold (M : MathModel) (variance : List Rat) : Rat :=
  let mean := listSum variance / (variance.length : Rat)
  let sd := M.sqrt (listSum (variance.map fun v => (v - mean) ^ 2) / (variance.length : Rat))
  mean + 2 * sd

/-- Event record built for one excessive moving-variance window. -/
def mkAliasedEvent (residuals : List DataPoint) (nyquistPower meanPower : Rat)
    (kiv : Nat × (Nat × Rat)) : Event :=
  { id := "aliased-" ++ toString kiv.1
    type := "Aliased Activity"
    startTime := (residuals.getD kiv.2.1 dpDefault).timestamp
    endTime := some ((residuals.getD (min (kiv.2.1 + 10) (residuals.length - 1))
                        dpDefault).timestamp)
    confidence := Confidence.Low
    properties := [("variance", PropVal.num kiv.2.2),
                   ("nyquist_power", PropVal.num nyquistPower),
                   ("mean_power", PropVal.num meanPower),
                   ("power_ratio", PropVal.num (nyquistPower / meanPower))] }

/-- Body of the aliased-activity detector, over the already computed variance
list and the frequency/power lists of the spectrum.  The gate bin is the first
bin whose frequency reaches `0.5 * 0.9 = 0.45` (`findIndex`); when its power
exceeds three times the mean power, every moving-variance value above the
two-sigma threshold yields one Low-confidence event spanning from its window
start to index `min (i + 10) (len - 1)`. -/
def aliasedEventsFromParts (M : MathModel) (variance frequencies powers : List Rat)
    (residuals : List DataPoint) : List Event :=
  let nyquistFreq : Rat := 1/2
  match frequencies.findIdx? (fun f => decide (f ≥ nyquistFreq * (9/10))) with
  | none => []
  | some nyquistIndex =>
    let nyquistPower := powers.getD nyquistIndex 0
    let meanPower := listSum powers / (powers.length : Rat)
    if nyquistPower > meanPower * 3 then
      let thr := calculateVarianceThreshold M variance
      (variance.enum.filter fun iv => decide (iv.2 > thr)).enum.map
        (mkAliasedEvent residuals nyquistPower meanPower)
    else []

/-- Aliased-activity detector (detectAliasedActivity): moving variance over
10-sample windows, the residual spectrum, then the gated event construction. -/
def detectAliasedActivity (M : MathModel) (residuals : List DataPoint) : List Event :=
  let variance := calculateMovingVariance residuals 10
  let spectral := computeSpectralAnalysis M residuals
  aliasedEventsFromParts M variance spectral.frequencies spectral.powers residuals

/-- Confidence filter of runFullAnalysis: keep events whose ordinal reaches
the configured threshold ordinal. -/
def filterEventsByConfidence (threshold : Confidence) (events : List Event) : List Event :=
  events.filter fun e => decide (confidenceLevel e.confidence ≥ confidenceLevel threshold)

/-- Embedded ProcessedData record. -/
structure ProcessedData where
  original : List DataPoint
  detrended : List DataPoint
  residuals : List DataPoint
  tidal : List DataPoint
deriving DecidableEq

/-- Result of a full analysis run. -/
structure AnalysisResult where
  processedData : ProcessedData
  events : List Event
deriving DecidableEq

/-- Full pipeline (engine constructor plus runFullAnalysis): sort, range
filter, smooth, fill gaps, separate the tide, detrend, run the seven
detectors in source order, filter by confidence. -/
def runFullAnalysis (M : MathModel) (config : AnalysisConfig)
    (data : List DataPoint) : AnalysisResult :=
  let sorted := sortByTimestamp data
  let filteredData := filterDataByTimeRange config sorted
  let smoothed := smoothData filteredData
  let gapFilled := fillGaps smoothed
  let tidalComponent := extractTidalComponent M config gapFilled
  let detrended := detrendData gapFilled tidalComponent
  let residuals := calculateResiduals gapFilled tidalComponent
  let events :=
    detectTidalPhases gapFilled tidalComponent ++
    detectStormSurges residuals ++
    detectSeiches M residuals ++
    detectInfragravityWaves M residuals ++
    detectDataArtifacts gapFilled ++
    detectExtremeLevels config gapFilled ++
    detectAliasedActivity M residuals
  { processedData :=
      { original := gapFilled
        detrended := detrended
        residuals := residuals
        tidal := tidalComponent }
    events := filterEventsByConfidence config.confidenceThreshold events }

/-- Rational value of `cos (2 * pi * x)` at quarter-turn points; 0 elsewhere
(only quarter-turn points are ever read by the concrete evaluations below). -/
def qtrCos (x : Rat) : Rat :=
  let y := 4 * x
  if y.den = 1 then
    let r := y.num % 4
    if r = 0 then 1 else if r = 1 then 0 else if r = 2 then -1 else 0
  else 0

/-- Rational value of `sin (2 * pi * x)` at quarter-turn points; 0 elsewhere. -/
def qtrSin (x : Rat) : Rat :=
  let y := 4 * x
  if y.den = 1 then
    let r := y.num % 4
    if r = 0 then 0 else if r = 1 then 1 else if r = 2 then 0 else -1
  else 0

/-- Fuel-driven Newton iteration for the integer square root (structural
recursion so that it evaluates inside the kernel). -/
def sqrtIter : Nat → Nat → Nat → Nat
  | 0, _, guess => guess
  | fuel + 1, n, guess =>
    let next := (guess + n / guess) / 2
    if next < guess then sqrtIter fuel n next else guess

/-- Integer square root (floor), by Newton iteration from `n / 2`. -/
def intSqrt (n : Nat) : Nat :=
  if n ≤ 1 then n else sqrtIter n n (n / 2)

/-- Rational square root: exact on perfect squares (the only points where the
concrete evaluations below read it). -/
def ratSqrt (q : Rat) : Rat :=
  (intSqrt q.num.toNat : Rat) / (intSqrt q.den : Rat)

/-- Concrete math model used by the closed evaluations. -/
def qModel : MathModel := ⟨qtrCos, qtrSin, ratSqrt⟩

/-! Helper lemmas. -/

theorem getD_append_left {l₁ l₂ : List DataPoint} {n : Nat} (h : n < l₁.length)
    (d : DataPoint) : (l₁ ++ l₂).getD n d = l₁.getD n d := by
  simp [List.getD_eq_getElem?_getD, List.getElem?_append_left h]

theorem getD_append_cons (l₁ l₂ : List DataPoint) (a d : DataPoint) :
    (l₁ ++ a :: l₂).getD l₁.length d = a := by
  simp [List.getD_eq_getElem?_getD, List.getElem?_append_right (Nat.le_refl _)]

/-- Loop invariant of the gap-filling splice loop: with the processed prefix
`pre` and the pair pointer at `pre.length + 1`, the loop emits `pre`, then the
previous sample `a`, then the structural walk over the remaining samples. -/
theorem fillGapsLoop_invariant (rest : List DataPoint) :
    ∀ (pre : List DataPoint) (a : DataPoint),
      fillGapsLoop (pre ++ a :: rest) (pre.length + 1) =
        pre ++ a :: fillGapsRun a rest := by
  induction rest with
  | nil =>
    intro pre a
    rw [fillGapsLoop]
    simp [fillGapsRun]
  | cons b rest2 ih =>
    intro pre a
    rw [fillGapsLoop]
    have hlen : pre.length + 1 < (pre ++ a :: b :: rest2).length := by
      simp
    rw [dif_pos hlen]
    have hprev : (pre ++ a :: b :: rest2).getD (pre.length + 1 - 1) dpDefault = a := by
      simpa using getD_append_cons pre (b :: rest2) a dpDefault
    have hcurr : (pre ++ a :: b :: rest2).getD (pre.length + 1) dpDefault = b := by
      have : pre ++ a :: b :: rest2 = (pre ++ [a]) ++ b :: rest2 := by simp
      rw [this]
      have := getD_append_cons (pre ++ [a]) rest2 b dpDefault
      simpa using this
    rw [hprev, hcurr]
    by_cases hgap : b.timestamp - a.timestamp > expectedInterval * 2
    · rw [if_pos hgap]
      have htake : (pre ++ a :: b :: rest2).take (pre.length + 1) = pre ++ [a] := by
        have h1 : pre ++ a :: b :: rest2 = (pre ++ [a]) ++ b :: rest2 := by simp
        have h2 : pre.length + 1 = (pre ++ [a]).length := by simp
        rw [h1, h2, List.take_left]
      have hdrop : (pre ++ a :: b :: rest2).drop (pre.length + 1) = b :: rest2 := by
        have h1 : pre ++ a :: b :: rest2 = (pre ++ [a]) ++ b :: rest2 := by simp
        have h2 : pre.length + 1 = (pre ++ [a]).length := by simp
        rw [h1, h2, List.drop_left]
      have hpre2 : (pre ++ [a]) ++ gapFillSamples a b ++ b :: rest2 =
          (pre ++ a :: gapFillSamples a b) ++ b :: rest2 := by simp
      have hidx : pre.length + 1 + (gapFillSamples a b).length + 1 =
          (pre ++ a :: gapFillSamples a b).length + 1 := by simp; omega
      rw [htake, hdrop, hpre2, hidx, ih (pre ++ a :: gapFillSamples a b) b]
      simp [fillGapsRun, if_pos hgap]
    · rw [if_neg hgap]
      have h1 : pre ++ a :: b :: rest2 = (pre ++ [a]) ++ b :: rest2 := by simp
      have h2 : pre.length + 1 + 1 = (pre ++ [a]).length + 1 := by simp
      rw [h1, h2, ih (pre ++ [a]) b]
      simp [fillGapsRun, if_neg hgap]

/-- The splice loop agrees with the structural walk. -/
theorem fillGaps_eq_rec (data : List DataPoint) : fillGaps data = fillGapsRec data := by
  cases data with
  | nil =>
    rw [fillGaps, fillGapsLoop]
    simp [fillGapsRec]
  | cons a rest =>
    have := fillGapsLoop_invariant rest [] a
    simpa [fillGaps, fillGapsRec] using this

theorem smoothData_length (data : List DataPoint) : (smoothData data).length = data.length := by
  simp [smoothData]

theorem harmonicTidalFit_length (M : MathModel) (data : List DataPoint) :
    (harmonicTidalFit M data).length = data.length := by
  simp [harmonicTidalFit]

theorem lowpassTidalFilter_length (data : List DataPoint) :
    (lowpassTidalFilter data).length = data.length := by
  simp [lowpassTidalFilter]

theorem extractTidalComponent_length (M : MathModel) (config : AnalysisConfig)
    (data : List DataPoint) : (extractTidalComponent M config data).length = data.length := by
  cases h : config.tideRemovalMethod <;>
    simp [extractTidalComponent, h, harmonicTidalFit_length, lowpassTidalFilter_length]

theorem detrendData_length (original tidal : List DataPoint) :
    (detrendData original tidal).length = original.length := by
  simp [detrendData]

/-- A run of samples that all stay above the surge threshold produces no
events, whatever the scan state. -/
theorem stormSurgeLoop_above (ys : List DataPoint)
    (h : ∀ p ∈ ys, surgeThreshold < |p.seaLevel|) :
    ∀ (i : Nat) (st : Option SurgeRun), stormSurgeLoop i st ys = [] := by
  induction ys with
  | nil => intro i st; rfl
  | cons p rest ih =>
    intro i st
    have hp : surgeThreshold < |p.seaLevel| := h p (by simp)
    have hrest : ∀ q ∈ rest, surgeThreshold < |q.seaLevel| := fun q hq => h q (by simp [hq])
    cases st with
    | none => simp only [stormSurgeLoop, if_pos hp]; exact ih hrest _ _
    | some r => simp only [stormSurgeLoop, if_pos hp]; exact ih hrest _ _

/-- Appending an everywhere-above-threshold suffix does not change the scan
output: the suffix only extends a run that is never flushed. -/
theorem stormSurgeLoop_append_above (ys : List DataPoint)
    (hys : ∀ p ∈ ys, surgeThreshold < |p.seaLevel|) :
    ∀ (xs : List DataPoint) (i : Nat) (st : Option SurgeRun),
      stormSurgeLoop i st (xs ++ ys) = stormSurgeLoop i st xs := by
  intro xs
  induction xs with
  | nil =>
    intro i st
    simpa using stormSurgeLoop_above ys hys i st
  | cons p rest ih =>
    intro i st
    by_cases hp : surgeThreshold < |p.seaLevel| <;> cases st <;>
      simp only [List.cons_append, stormSurgeLoop, if_pos, if_neg, hp, if_true, if_false] <;>
      simp [ih]

theorem exists_max_level : ∀ (l : List DataPoint), l ≠ [] →
    ∃ p ∈ l, ∀ q ∈ l, q.seaLevel ≤ p.seaLevel := by
  intro l
  induction l with
  | nil => intro h; exact absurd rfl h
  | cons a t ih =>
    intro _
    cases t with
    | nil => exact ⟨a, by simp⟩
    | cons b t2 =>
      obtain ⟨p, hp, hmax⟩ := ih (by simp)
      by_cases hap : a.seaLevel ≤ p.seaLevel
      · exact ⟨p, by simp [hp], by
          intro q hq
          rcases List.mem_cons.mp hq with rfl | hq2
          · exact hap
          · exact hmax q hq2⟩
      · refine ⟨a, by simp, ?_⟩
        intro q hq
        rcases List.mem_cons.mp hq with rfl | hq2
        · exact le_refl _
        · exact le_trans (hmax q hq2) (le_of_not_le hap)

theorem exists_min_level : ∀ (l : List DataPoint), l ≠ [] →
    ∃ p ∈ l, ∀ q ∈ l, p.seaLevel ≤ q.seaLevel := by
  intro l
  induction l with
  | nil => intro h; exact absurd rfl h
  | cons a t ih =>
    intro _
    cases t with
    | nil => exact ⟨a, by simp⟩
    | cons b t2 =>
      obtain ⟨p, hp, hmin⟩ := ih (by simp)
      by_cases hap : p.seaLevel ≤ a.seaLevel
      · exact ⟨p, by simp [hp], by
          intro q hq
          rcases List.mem_cons.mp hq with rfl | hq2
          · exact hap
          · exact hmin q hq2⟩
      · refine ⟨a, by simp, ?_⟩
        intro q hq
        rcases List.mem_cons.mp hq with rfl | hq2
        · exact le_refl _
        · exact le_trans (le_of_not_le hap) (hmin q hq2)

theorem ratGetD_mem {l : List Rat} {n : Nat} (h : n < l.length) (d : Rat) :
    l.getD n d ∈ l := by
  rw [List.getD_eq_getElem?_getD, List.getElem?_eq_getElem h]
  exact List.getElem_mem h

/-- The value read at either percentile index lies between the extremes of the
level list: it is a member of the sorted copy, hence of the level list. -/
theorem percentile_mem (levels : List Rat) (k : Nat) (hk : k < levels.length) :
    (levels.insertionSort (· ≤ ·)).getD k 0 ∈ levels := by
  have hlen : (levels.insertionSort (· ≤ ·)).length = levels.length := by
    exact (List.perm_insertionSort (· ≤ ·) levels).length_eq
  have := @ratGetD_mem (levels.insertionSort (· ≤ ·)) k (by omega) 0
  exact (List.perm_insertionSort (· ≤ ·) levels).mem_iff.mp this

/-- Two sorted lists that are permutations of each other and have pairwise
distinct timestamps are equal. -/
theorem eq_of_sorted_of_perm_of_nodup :
    ∀ {l₁ l₂ : List DataPoint}, l₁.Perm l₂ → l₁.Sorted tsLe → l₂.Sorted tsLe →
      (l₁.map DataPoint.timestamp).Nodup → l₁ = l₂ := by
  intro l₁
  induction l₁ with
  | nil =>
    intro l₂ hp _ _ _
    exact (hp.nil_eq).symm ▸ rfl
  | cons a t₁ ih =>
    intro l₂ hp hs₁ hs₂ hnd
    cases l₂ with
    | nil => exact absurd hp.symm.nil_eq (by simp)
    | cons b t₂ =>
      have hab : a = b := by
        have hbmem : b ∈ a :: t₁ := hp.mem_iff.mpr (by simp)
        have hamem : a ∈ b :: t₂ := hp.mem_iff.mp (by simp)
        rcases List.mem_cons.mp hbmem with hba | hbt
        · exact hba.symm
        rcases List.mem_cons.mp hamem with hab | hat
        · exact hab
        have h1 : a.timestamp ≤ b.timestamp := List.rel_of_sorted_cons hs₁ b hbt
        have h2 : b.timestamp ≤ a.timestamp := List.rel_of_sorted_cons hs₂ a hat
        have heq : a.timestamp = b.timestamp := le_antisymm h1 h2
        have : a.timestamp ∉ t₁.map DataPoint.timestamp := by
          simpa using (List.nodup_cons.mp hnd).1
        exact absurd (heq ▸ List.mem_map_of_mem DataPoint.timestamp hbt) this
      subst hab
      have htail := ih hp.cons_inv hs₁.of_cons hs₂.of_cons
        (by simpa using (List.nodup_cons.mp hnd).2)
      rw [htail]

/-- When all timestamps are distinct, the stable sort of any permutation of a
sample list is the same list. -/
theorem sortByTimestamp_perm_eq (l₁ l₂ : List DataPoint) (hp : l₁.Perm l₂)
    (hnd : (l₁.map DataPoint.timestamp).Nodup) :
    sortByTimestamp l₁ = sortByTimestamp l₂ := by
  have hperm : (sortByTimestamp l₁).Perm (sortByTimestamp l₂) :=
    (List.perm_insertionSort tsLe l₁).trans (hp.trans (List.perm_insertionSort tsLe l₂).symm)
  have hnd₁ : ((sortByTimestamp l₁).map DataPoint.timestamp).Nodup := by
    have : ((sortByTimestamp l₁).map DataPoint.timestamp).Perm (l₁.map DataPoint.timestamp) :=
      (List.perm_insertionSort tsLe l₁).map DataPoint.timestamp
    exact this.nodup_iff.mpr hnd
  exact eq_of_sorted_of_perm_of_nodup hperm
    (List.sorted_insertionSort tsLe l₁) (List.sorted_insertionSort tsLe l₂) hnd₁

theorem ratGetD_eq {l : List Rat} {n : Nat} (h : n < l.length) : l.getD n 0 = l[n] := by
  rw [List.getD_eq_getElem?_getD, List.getElem?_eq_getElem h]
  rfl

/-- Invariant of the dominant-frequency scan of the spectral analyzer: the
running maximum never decreases, every positive-frequency entry is dominated
by the final maximum, and the final state is either the initial one or comes
from a positive-frequency entry of the list. -/
theorem domFold_spec (l : List (Rat × Rat)) : ∀ init : Rat × Rat,
    init.1 ≤ (l.foldl (fun acc fp => if fp.2 > acc.1 ∧ fp.1 > 0 then (fp.2, fp.1) else acc) init).1
    ∧ (∀ fp ∈ l, 0 < fp.1 →
        fp.2 ≤ (l.foldl (fun acc fp => if fp.2 > acc.1 ∧ fp.1 > 0 then (fp.2, fp.1) else acc) init).1)
    ∧ ((l.foldl (fun acc fp => if fp.2 > acc.1 ∧ fp.1 > 0 then (fp.2, fp.1) else acc) init) = init
        ∨ ∃ fp ∈ l, 0 < fp.1 ∧
          (l.foldl (fun acc fp => if fp.2 > acc.1 ∧ fp.1 > 0 then (fp.2, fp.1) else acc) init) =
            (fp.2, fp.1)) := by
  induction l with
  | nil =>
    intro init
    exact ⟨le_refl _, by simp, Or.inl rfl⟩
  | cons fp t ih =>
    intro init
    simp only [List.foldl_cons]
    by_cases hc : fp.2 > init.1 ∧ fp.1 > 0
    · rw [if_pos hc]
      obtain ⟨h1, h2, h3⟩ := ih (fp.2, fp.1)
      refine ⟨le_trans (le_of_lt hc.1) h1, ?_, ?_⟩
      · intro gp hgp hgppos
        rcases List.mem_cons.mp hgp with rfl | hgt
        · exact h1
        · exact h2 gp hgt hgppos
      · rcases h3 with he | ⟨gp, hgp, hgppos, heq⟩
        · exact Or.inr ⟨fp, by simp, hc.2, he⟩
        · exact Or.inr ⟨gp, by simp [hgp], hgppos, heq⟩
    · rw [if_neg hc]
      obtain ⟨h1, h2, h3⟩ := ih init
      refine ⟨h1, ?_, ?_⟩
      · intro gp hgp hgppos
        rcases List.mem_cons.mp hgp with rfl | hgt
        · have hle : ¬ (init.1 < gp.2) := fun hgt2 => hc ⟨hgt2, hgppos⟩
          exact le_trans (not_lt.mp hle) h1
        · exact h2 gp hgt hgppos
      · rcases h3 with he | ⟨gp, hgp, hgppos, heq⟩
        · exact Or.inl he
        · exact Or.inr ⟨gp, by simp [hgp], hgppos, heq⟩

theorem spectral_frequencies (M : MathModel) (data : List DataPoint) :
    (computeSpectralAnalysis M data).frequencies =
      (List.range (binCount data.length)).map
        (fun (i : Nat) => (i : Rat) * ((1/2 : Rat) / ((data.length : Rat) / 2))) := by
  simp [computeSpectralAnalysis]

theorem spectral_powers_length (M : MathModel) (data : List DataPoint) :
    (computeSpectralAnalysis M data).powers.length =
      (computeSpectralAnalysis M data).frequencies.length := by
  simp [computeSpectralAnalysis]

theorem spectral_dom (M : MathModel) (data : List DataPoint) :
    (computeSpectralAnalysis M data).dominantFrequency =
      (((computeSpectralAnalysis M data).frequencies.zip
          (computeSpectralAnalysis M data).powers).foldl
        (fun acc fp => if fp.2 > acc.1 ∧ fp.1 > 0 then (fp.2, fp.1) else acc) (0, 0)).2 := by
  simp [computeSpectralAnalysis]

/-- Characterization of `findIdx?` with an arbitrary start offset: a found
index is in range, satisfies the test, and is preceded only by failures. -/
theorem findIdxQ_spec {p : Rat → Bool} :
    ∀ (l : List Rat) (s k : Nat), l.findIdx? p s = some k →
      s ≤ k ∧ k - s < l.length ∧ p (l.getD (k - s) 0) = true
        ∧ ∀ j < k - s, p (l.getD j 0) = false := by
  intro l
  induction l with
  | nil => intro s k h; simp [List.findIdx?] at h
  | cons a t ih =>
    intro s k h
    rw [List.findIdx?] at h
    by_cases hpa : p a
    · rw [if_pos hpa] at h
      have hk : k = s := by
        have := Option.some_inj.mp h
        omega
      subst hk
      refine ⟨le_refl _, by simp, by simpa, ?_⟩
      intro j hj
      omega
    · rw [if_neg hpa] at h
      obtain ⟨h1, h2, h3, h4⟩ := ih (s + 1) k h
      have hks : k - s = (k - (s + 1)) + 1 := by omega
      refine ⟨by omega, by simp; omega, ?_, ?_⟩
      · rw [hks]
        simpa using h3
      · intro j hj
        cases j with
        | zero => simpa using hpa
        | succ j2 =>
          have : j2 < k - (s + 1) := by omega
          simpa using h4 j2 this

/-- Filtering on the value component commutes with enumeration as far as the
number of survivors is concerned. -/
theorem filter_enumFrom_length (q : Rat → Bool) :
    ∀ (l : List Rat) (n : Nat),
      ((List.enumFrom n l).filter (fun iv => q iv.2)).length = (l.filter q).length := by
  intro l
  induction l with
  | nil => intro n; rfl
  | cons a t ih =>
    intro n
    simp only [List.enumFrom, List.filter_cons]
    cases hqa : q a <;> simp [ih]

/-- Case analysis of the aliased-activity detector: either it emits nothing,
or the gate bin was found, its power exceeds three times the mean, and the
output is the mapped list of excessive variance windows. -/
theorem detectAliased_cases (M : MathModel) (residuals : List DataPoint) :
    detectAliasedActivity M residuals = [] ∨
    (∃ k, (computeSpectralAnalysis M residuals).frequencies.findIdx?
        (fun f => decide (f ≥ (1/2 : Rat) * (9/10))) = some k
      ∧ (computeSpectralAnalysis M residuals).powers.getD k 0 >
          listSum (computeSpectralAnalysis M residuals).powers /
            ((computeSpectralAnalysis M residuals).powers.length : Rat) * 3
      ∧ detectAliasedActivity M residuals =
          ((calculateMovingVariance residuals 10).enum.filter
              (fun iv => decide (iv.2 >
                calculateVarianceThreshold M (calculateMovingVariance residuals 10)))).enum.map
            (mkAliasedEvent residuals
              ((computeSpectralAnalysis M residuals).powers.getD k 0)
              (listSum (computeSpectralAnalysis M residuals).powers /
                ((computeSpectralAnalysis M residuals).powers.length : Rat)))) := by
  simp only [detectAliasedActivity, aliasedEventsFromParts]
  rcases hf : (computeSpectralAnalysis M residuals).frequencies.findIdx?
      (fun f => decide (f ≥ (1/2 : Rat) * (9/10))) with _ | k
  · exact Or.inl rfl
  · by_cases hg : (computeSpectralAnalysis M residuals).powers.getD k 0 >
        listSum (computeSpectralAnalysis M residuals).powers /
          ((computeSpectralAnalysis M residuals).powers.length : Rat) * 3
    · refine Or.inr ⟨k, rfl, hg, ?_⟩
      dsimp only
      rw [if_pos hg]
    · refine Or.inl ?_
      dsimp only
      rw [if_neg hg]

/-! Claims. -/

section Claims

attribute [local semireducible] Rat.add Rat.mul Rat.sub Rat.inv

set_option maxRecDepth 40000
set_option maxHeartbeats 4000000

/-- C2: every derived series of the decomposition has the same length as the
gap-filled original, and neither tidal separation strategy nor the
detrend/residual stage changes series length. -/
theorem C2_length_invariant (M : MathModel) (config : AnalysisConfig) (data : List DataPoint) :
    ((runFullAnalysis M config data).processedData.detrended.length =
        (runFullAnalysis M config data).processedData.original.length
      ∧ (runFullAnalysis M config data).processedData.residuals.length =
        (runFullAnalysis M config data).processedData.original.length
      ∧ (runFullAnalysis M config data).processedData.tidal.length =
        (runFullAnalysis M config data).processedData.original.length)
    ∧ (∀ l, (extractTidalComponent M config l).length = l.length)
    ∧ (∀ l, (harmonicTidalFit M l).length = l.length)
    ∧ (∀ l, (lowpassTidalFilter l).length = l.length)
    ∧ (∀ l t, (detrendData l t).length = l.length)
    ∧ (∀ l t, (calculateResiduals l t).length = l.length) := by
  refine ⟨⟨?_, ?_, ?_⟩, extractTidalComponent_length M config,
    harmonicTidalFit_length M, lowpassTidalFilter_length,
    detrendData_length, fun l t => detrendData_length l t⟩ <;>
    simp [runFullAnalysis, calculateResiduals, detrendData_length, extractTidalComponent_length]

/-- Events used to exercise the confidence filter. -/
def sampleEvents : List Event :=
  [{ id := "a", type := "Spike", startTime := 0, confidence := Confidence.Low, properties := [] },
   { id := "b", type := "High Tide", startTime := 1, confidence := Confidence.Medium, properties := [] },
   { id := "c", type := "Storm Surge", startTime := 2, confidence := Confidence.High, properties := [] }]

/-- C8: the confidence filter keeps exactly the events whose ordinal reaches
the threshold ordinal, preserves order (the result is a sublist), and is
antitone in the threshold: a higher threshold keeps a subset. -/
theorem C8_confidence_filter (t1 t2 : Confidence) (events : List Event) :
    (∀ e, e ∈ filterEventsByConfidence t1 events ↔
        e ∈ events ∧ confidenceLevel t1 ≤ confidenceLevel e.confidence)
    ∧ (filterEventsByConfidence t1 events).Sublist events
    ∧ (confidenceLevel t1 ≤ confidenceLevel t2 →
        ∀ e ∈ filterEventsByConfidence t2 events, e ∈ filterEventsByConfidence t1 events) := by
  refine ⟨fun e => ?_, List.filter_sublist events, fun h12 e he => ?_⟩
  · simp [filterEventsByConfidence, List.mem_filter]
  · simp only [filterEventsByConfidence, List.mem_filter, decide_eq_true_eq] at he ⊢
    exact ⟨he.1, le_trans h12 he.2⟩

/-- Witness for C8 at a concrete event list and threshold pair. -/
theorem C8_witness :
    confidenceLevel Confidence.Low ≤ confidenceLevel Confidence.Medium
    ∧ (∀ e ∈ filterEventsByConfidence Confidence.Medium sampleEvents,
        e ∈ filterEventsByConfidence Confidence.Low sampleEvents) :=
  ⟨by decide, (C8_confidence_filter Confidence.Low Confidence.Medium sampleEvents).2.2 (by decide)⟩

/-- C9: a trailing run of samples whose magnitude stays above the 0.15 m
threshold is never flushed: the detector output over `xs ++ ys` equals the
output over `xs` alone, and an everywhere-above series yields no event. -/
theorem C9_trailing_run (xs ys : List DataPoint) (_hne : ys ≠ [])
    (h : ∀ p ∈ ys, surgeThreshold < |p.seaLevel|) :
    detectStormSurges (xs ++ ys) = detectStormSurges xs ∧ detectStormSurges ys = [] := by
  refine ⟨stormSurgeLoop_append_above ys h xs 0 none, ?_⟩
  exact stormSurgeLoop_above ys h 0 none

/-- Witness for C9: ninety samples at 0.2 m (a run well past the minimum
duration) produce no event when the series ends while still elevated. -/
theorem C9_witness :
    ((List.range 90).map fun i => (⟨60000 * (i : Int), 1/5, (i : Int)⟩ : DataPoint)) ≠ []
    ∧ detectStormSurges
        ([] ++ (List.range 90).map fun i => (⟨60000 * (i : Int), 1/5, (i : Int)⟩ : DataPoint)) =
        detectStormSurges []
    ∧ detectStormSurges
        ((List.range 90).map fun i => (⟨60000 * (i : Int), 1/5, (i : Int)⟩ : DataPoint)) = [] := by
  have h := C9_trailing_run []
    ((List.range 90).map fun i => (⟨60000 * (i : Int), 1/5, (i : Int)⟩ : DataPoint))
    (by decide) (by decide)
  exact ⟨by decide, h.1, h.2⟩

/-- C10: on a non-empty series every maximum-level sample and every
minimum-level sample is flagged (the 99th-percentile read is at most the
maximum and the 1st-percentile read is at least the minimum), so the
extreme-level detector always emits at least one event, whatever the
configured threshold. -/
theorem C10_extremes (config : AnalysisConfig) (data : List DataPoint) (h : data ≠ []) :
    (∀ p ∈ data, (∀ q ∈ data, q.seaLevel ≤ p.seaLevel) →
        ∃ e ∈ detectExtremeLevels config data, e.startTime = p.timestamp)
    ∧ (∀ p ∈ data, (∀ q ∈ data, p.seaLevel ≤ q.seaLevel) →
        ∃ e ∈ detectExtremeLevels config data, e.startTime = p.timestamp)
    ∧ detectExtremeLevels config data ≠ [] := by
  have hlen : 0 < data.length := List.length_pos.mpr h
  have hmax : ∀ p ∈ data, (∀ q ∈ data, q.seaLevel ≤ p.seaLevel) →
      ∃ e ∈ detectExtremeLevels config data, e.startTime = p.timestamp := by
    intro p hp hpmax
    have hidx : (data.map (·.seaLevel)).length * 99 / 100 < (data.map (·.seaLevel)).length := by
      simp only [List.length_map]
      omega
    have hmem := percentile_mem (data.map (·.seaLevel)) _ hidx
    obtain ⟨q, hq, hqeq⟩ := List.mem_map.mp hmem
    have hge : ((data.map (·.seaLevel)).insertionSort (· ≤ ·)).getD
        ((data.map (·.seaLevel)).length * 99 / 100) 0 ≤ p.seaLevel := by
      rw [← hqeq]
      exact hpmax q hq
    simp only [detectExtremeLevels]
    exact ⟨_, List.mem_filterMap.mpr ⟨p, hp, if_pos (Or.inr (Or.inl hge))⟩, rfl⟩
  refine ⟨hmax, ?_, ?_⟩
  · intro p hp hpmin
    have hidx : (data.map (·.seaLevel)).length / 100 < (data.map (·.seaLevel)).length := by
      simp only [List.length_map]
      omega
    have hmem := percentile_mem (data.map (·.seaLevel)) _ hidx
    obtain ⟨q, hq, hqeq⟩ := List.mem_map.mp hmem
    have hle : p.seaLevel ≤ ((data.map (·.seaLevel)).insertionSort (· ≤ ·)).getD
        ((data.map (·.seaLevel)).length / 100) 0 := by
      rw [← hqeq]
      exact hpmin q hq
    simp only [detectExtremeLevels]
    exact ⟨_, List.mem_filterMap.mpr ⟨p, hp, if_pos (Or.inl hle)⟩, rfl⟩
  · obtain ⟨p, hp, hpmax⟩ := exists_max_level data h
    obtain ⟨e, he, _⟩ := hmax p hp hpmax
    exact fun hempty => by simp [hempty] at he

/-- Witness for C10 at a concrete two-sample series. -/
theorem C10_witness :
    ([⟨0, 1, 0⟩, ⟨60000, 2, 1⟩] : List DataPoint) ≠ []
    ∧ detectExtremeLevels
        { tideRemovalMethod := TideMethod.lowpass, extremeThreshold := 100,
          confidenceThreshold := Confidence.Low }
        [⟨0, 1, 0⟩, ⟨60000, 2, 1⟩] ≠ [] :=
  ⟨by decide,
   (C10_extremes
     { tideRemovalMethod := TideMethod.lowpass, extremeThreshold := 100,
       confidenceThreshold := Confidence.Low }
     [⟨0, 1, 0⟩, ⟨60000, 2, 1⟩] (by decide)).2.2⟩

/-- C6: at an interior index whose incoming slope exceeds 0.02 and whose
outgoing slope is below -0.02, the tidal-phase detector emits both the
High-confidence High Tide event at the midpoint sample and a Rising Tide
event for the same index pair: the peak check and the phase check are
independent branches. -/
theorem C6_tidal_phase (tidal : List DataPoint) (i : Nat) (h1 : 1 ≤ i)
    (h2 : i + 1 < tidal.length)
    (hpeak : tideThreshold < (tidal.getD i dpDefault).seaLevel - (tidal.getD (i - 1) dpDefault).seaLevel)
    (hnext : (tidal.getD (i + 1) dpDefault).seaLevel - (tidal.getD i dpDefault).seaLevel < -tideThreshold)
    (data : List DataPoint) :
    ({ id := "high-tide-" ++ toString i,
       type := "High Tide",
       startTime := (tidal.getD i dpDefault).timestamp,
       confidence := Confidence.High,
       amplitude := some (tidal.getD i dpDefault).seaLevel,
       properties := [("level", PropVal.num (tidal.getD i dpDefault).seaLevel),
                      ("slope_in", PropVal.num ((tidal.getD i dpDefault).seaLevel -
                        (tidal.getD (i - 1) dpDefault).seaLevel)),
                      ("slope_out", PropVal.num ((tidal.getD (i + 1) dpDefault).seaLevel -
                        (tidal.getD i dpDefault).seaLevel))] } : Event) ∈ detectTidalPhases data tidal
    ∧ ∃ conf,
      ({ id := "rising-tide-" ++ toString i,
         type := "Rising Tide",
         startTime := (tidal.getD (i - 1) dpDefault).timestamp,
         endTime := some (tidal.getD i dpDefault).timestamp,
         confidence := conf,
         properties := [("slope", PropVal.num ((tidal.getD i dpDefault).seaLevel -
           (tidal.getD (i - 1) dpDefault).seaLevel))] } : Event) ∈ detectTidalPhases data tidal := by
  have hmem : i ∈ List.range' 1 (tidal.length - 2) := by
    rw [List.mem_range']
    exact ⟨i - 1, by omega, by omega⟩
  have hpos : (0 : Rat) < (tidal.getD i dpDefault).seaLevel - (tidal.getD (i - 1) dpDefault).seaLevel := by
    have : (0 : Rat) < tideThreshold := by norm_num [tideThreshold]
    linarith
  have habs : tideThreshold < |(tidal.getD i dpDefault).seaLevel - (tidal.getD (i - 1) dpDefault).seaLevel| := by
    rwa [abs_of_pos hpos]
  constructor
  · refine List.mem_flatMap.mpr ⟨i, hmem, ?_⟩
    simp only [tidalPhaseAt, if_pos (And.intro hpeak hnext)]
    exact List.mem_append_left _ (List.mem_append_left _ (by simp))
  · refine ⟨if tideThreshold * 2 < |(tidal.getD i dpDefault).seaLevel - (tidal.getD (i - 1) dpDefault).seaLevel|
        then Confidence.High else Confidence.Medium,
      List.mem_flatMap.mpr ⟨i, hmem, ?_⟩⟩
    simp only [tidalPhaseAt]
    refine List.mem_append_right _ ?_
    rw [if_pos habs, if_pos hpos, if_pos hpos]
    simp

/-- Witness for C6 at a concrete three-sample peak. -/
theorem C6_witness :
    (1 : Nat) ≤ 1 ∧ 1 + 1 < ([⟨0, 0, 0⟩, ⟨60000, 1, 1⟩, ⟨120000, 0, 2⟩] : List DataPoint).length
    ∧ ({ id := "high-tide-" ++ toString 1,
         type := "High Tide",
         startTime := (([⟨0, 0, 0⟩, ⟨60000, 1, 1⟩, ⟨120000, 0, 2⟩] : List DataPoint).getD 1 dpDefault).timestamp,
         confidence := Confidence.High,
         amplitude := some (([⟨0, 0, 0⟩, ⟨60000, 1, 1⟩, ⟨120000, 0, 2⟩] : List DataPoint).getD 1 dpDefault).seaLevel,
         properties := [("level", PropVal.num ((([⟨0, 0, 0⟩, ⟨60000, 1, 1⟩, ⟨120000, 0, 2⟩] : List DataPoint).getD 1 dpDefault).seaLevel)),
                        ("slope_in", PropVal.num ((([⟨0, 0, 0⟩, ⟨60000, 1, 1⟩, ⟨120000, 0, 2⟩] : List DataPoint).getD 1 dpDefault).seaLevel -
                          (([⟨0, 0, 0⟩, ⟨60000, 1, 1⟩, ⟨120000, 0, 2⟩] : List DataPoint).getD 0 dpDefault).seaLevel)),
                        ("slope_out", PropVal.num ((([⟨0, 0, 0⟩, ⟨60000, 1, 1⟩, ⟨120000, 0, 2⟩] : List DataPoint).getD 2 dpDefault).seaLevel -
                          (([⟨0, 0, 0⟩, ⟨60000, 1, 1⟩, ⟨120000, 0, 2⟩] : List DataPoint).getD 1 dpDefault).seaLevel))] } : Event)
        ∈ detectTidalPhases [] [⟨0, 0, 0⟩, ⟨60000, 1, 1⟩, ⟨120000, 0, 2⟩]
    ∧ ∃ conf,
      ({ id := "rising-tide-" ++ toString 1,
         type := "Rising Tide",
         startTime := (([⟨0, 0, 0⟩, ⟨60000, 1, 1⟩, ⟨120000, 0, 2⟩] : List DataPoint).getD 0 dpDefault).timestamp,
         endTime := some (([⟨0, 0, 0⟩, ⟨60000, 1, 1⟩, ⟨120000, 0, 2⟩] : List DataPoint).getD 1 dpDefault).timestamp,
         confidence := conf,
         properties := [("slope", PropVal.num ((([⟨0, 0, 0⟩, ⟨60000, 1, 1⟩, ⟨120000, 0, 2⟩] : List DataPoint).getD 1 dpDefault).seaLevel -
           (([⟨0, 0, 0⟩, ⟨60000, 1, 1⟩, ⟨120000, 0, 2⟩] : List DataPoint).getD 0 dpDefault).seaLevel))] } : Event)
        ∈ detectTidalPhases [] [⟨0, 0, 0⟩, ⟨60000, 1, 1⟩, ⟨120000, 0, 2⟩] := by
  have h := C6_tidal_phase [⟨0, 0, 0⟩, ⟨60000, 1, 1⟩, ⟨120000, 0, 2⟩] 1
    (by decide) (by decide) (by decide) (by decide) []
  exact ⟨by decide, by decide, h.1, h.2⟩

/-- C4: a consecutive pair more than two expected intervals apart receives
exactly `floor(delta / interval) - 1` interpolated samples at one-minute
spacing, levels linear in the step index with `originalIndex = -1`; a pair at
most two intervals apart is left unchanged; and the concrete five-minute gap
between levels 1.0 and 1.5 receives 1.1, 1.2, 1.3, 1.4. -/
theorem C4_gap_fill :
    (∀ p q rest, expectedInterval * 2 < q.timestamp - p.timestamp →
        fillGaps (p :: q :: rest) = p :: (gapFillSamples p q ++ fillGaps (q :: rest))
        ∧ (gapFillSamples p q).length = ((q.timestamp - p.timestamp) / expectedInterval - 1).toNat
        ∧ (∀ j < (gapFillSamples p q).length,
            (gapFillSamples p q).getD j dpDefault =
              { timestamp := p.timestamp + ((j + 1 : Nat) : Int) * expectedInterval,
                seaLevel := p.seaLevel + (q.seaLevel - p.seaLevel) * ((j + 1 : Nat) : Rat) /
                  ((((q.timestamp - p.timestamp) / expectedInterval - 1).toNat : Rat) + 1),
                originalIndex := -1 }))
    ∧ (∀ p q rest, q.timestamp - p.timestamp ≤ expectedInterval * 2 →
        fillGaps (p :: q :: rest) = p :: fillGaps (q :: rest))
    ∧ fillGaps [⟨0, 1, 0⟩, ⟨300000, 3/2, 1⟩] =
        [⟨0, 1, 0⟩, ⟨60000, 11/10, -1⟩, ⟨120000, 6/5, -1⟩,
         ⟨180000, 13/10, -1⟩, ⟨240000, 7/5, -1⟩, ⟨300000, 3/2, 1⟩] := by
  refine ⟨fun p q rest h => ⟨?_, ?_, ?_⟩, fun p q rest h => ?_, ?_⟩
  · rw [fillGaps_eq_rec, fillGaps_eq_rec]
    simp [fillGapsRec, fillGapsRun, if_pos h]
  · simp [gapFillSamples]
  · intro j hj
    have hj2 : j < ((q.timestamp - p.timestamp) / expectedInterval).toNat - 1 := by
      simpa [gapFillSamples, Int.pred_toNat] using hj
    simp [gapFillSamples, List.getD_eq_getElem?_getD, List.getElem?_map,
      List.getElem?_range hj2]
  · rw [fillGaps_eq_rec, fillGaps_eq_rec]
    have hnot : ¬ (expectedInterval * 2 < q.timestamp - p.timestamp) := not_lt.mpr h
    simp [fillGapsRec, fillGapsRun, if_neg hnot]
  · rw [fillGaps_eq_rec]
    decide

/-- Witness for C4: the five-minute-gap pair and an adjacent pair. -/
theorem C4_witness :
    expectedInterval * 2 < (⟨300000, 3/2, 1⟩ : DataPoint).timestamp - (⟨0, 1, 0⟩ : DataPoint).timestamp
    ∧ fillGaps [⟨0, 1, 0⟩, ⟨300000, 3/2, 1⟩] =
        ⟨0, 1, 0⟩ :: (gapFillSamples ⟨0, 1, 0⟩ ⟨300000, 3/2, 1⟩ ++ fillGaps [⟨300000, 3/2, 1⟩])
    ∧ (⟨60000, 21/20, 1⟩ : DataPoint).timestamp - (⟨0, 1, 0⟩ : DataPoint).timestamp ≤ expectedInterval * 2
    ∧ fillGaps [⟨0, 1, 0⟩, ⟨60000, 21/20, 1⟩] = ⟨0, 1, 0⟩ :: fillGaps [⟨60000, 21/20, 1⟩] :=
  ⟨by decide, (C4_gap_fill.1 ⟨0, 1, 0⟩ ⟨300000, 3/2, 1⟩ [] (by decide)).1,
   by decide, C4_gap_fill.2.1 ⟨0, 1, 0⟩ ⟨60000, 21/20, 1⟩ [] (by decide)⟩

/-- Residual series of the C1 scenario: 0.20 m for the 90 samples at indices
1 through 90, and 0 elsewhere (indices 0 and 91), on a one-minute grid. -/
def c1res : List DataPoint :=
  (List.range 92).map fun i =>
    ⟨60000 * (i : Int), if 1 ≤ i ∧ i ≤ 90 then 1/5 else 0, (i : Int)⟩

/-- Counterexample to C1: the emitted event has Medium confidence, not High,
because the 0.20 m peak does not exceed twice the 0.15 m threshold. -/
theorem C1_counterexample :
    (detectStormSurges c1res).map Event.confidence = [Confidence.Medium]
    ∧ Confidence.Medium ≠ Confidence.High := by
  constructor
  · decide
  · decide

/-- C1 (amended): on the synthetic 90-minute 0.20 m residual the detector
emits exactly one Storm Surge event, of Medium confidence, with
`duration_minutes = 90`, `peak_amplitude = 0.20`, and `peak` the timestamp of
the first maximum-magnitude sample of the run. -/
theorem C1_amended :
    detectStormSurges c1res =
      [{ id := "storm-surge-1",
         type := "Storm Surge",
         startTime := 60000,
         endTime := some 5400000,
         peak := some 60000,
         confidence := Confidence.Medium,
         amplitude := some (1/5),
         properties := [("peak_amplitude", PropVal.num (1/5)),
                        ("duration_minutes", PropVal.num 90),
                        ("surge_type", PropVal.str "positive")] }] := by
  decide

/-- Configuration used by the C3 scenario (low-pass separation, permissive
filter, no time range). -/
def c3cfg : AnalysisConfig :=
  { tideRemovalMethod := TideMethod.lowpass,
    extremeThreshold := 1,
    confidenceThreshold := Confidence.Low }

/-- Six samples, the last two sharing a timestamp. -/
def c3a : List DataPoint :=
  [⟨0, 1, 0⟩, ⟨60000, 2, 1⟩, ⟨120000, 3, 2⟩, ⟨180000, 4, 3⟩, ⟨240000, 0, 4⟩, ⟨240000, 10, 5⟩]

/-- The same six samples with the duplicate-timestamp pair swapped. -/
def c3b : List DataPoint :=
  [⟨0, 1, 0⟩, ⟨60000, 2, 1⟩, ⟨120000, 3, 2⟩, ⟨180000, 4, 3⟩, ⟨240000, 10, 5⟩, ⟨240000, 0, 4⟩]

/-- Trivial math model (never read by the evaluations that use it). -/
def M0 : MathModel := ⟨fun _ => 0, fun _ => 0, fun _ => 0⟩

/-- Counterexample to C3: with two samples sharing a timestamp, swapping them
is a permutation of the input, yet the stable constructor sort preserves
their order, the smoother windows differ, and the two runs produce different
decompositions (the original series already differs in its levels). -/
theorem C3_counterexample :
    c3a.Perm c3b
    ∧ (runFullAnalysis M0 c3cfg c3a).processedData.original.map DataPoint.seaLevel
      ≠ (runFullAnalysis M0 c3cfg c3b).processedData.original.map DataPoint.seaLevel := by
  constructor
  · decide
  · simp only [runFullAnalysis, fillGaps_eq_rec]
    decide

/-- C3 (amended): when all timestamps are pairwise distinct, the engine
produces the same analysis result (decomposition and event list) for any
permutation of the input samples. -/
theorem C3_amended (M : MathModel) (config : AnalysisConfig) (l₁ l₂ : List DataPoint)
    (hperm : l₁.Perm l₂) (hnd : (l₁.map DataPoint.timestamp).Nodup) :
    runFullAnalysis M config l₁ = runFullAnalysis M config l₂ := by
  have hs := sortByTimestamp_perm_eq l₁ l₂ hperm hnd
  simp only [runFullAnalysis, hs]

/-- Witness for C3 at a concrete two-sample permutation. -/
theorem C3_witness :
    ([⟨60000, 1, 0⟩, ⟨0, 2, 1⟩] : List DataPoint).Perm [⟨0, 2, 1⟩, ⟨60000, 1, 0⟩]
    ∧ (([⟨60000, 1, 0⟩, ⟨0, 2, 1⟩] : List DataPoint).map DataPoint.timestamp).Nodup
    ∧ runFullAnalysis M0 c3cfg [⟨60000, 1, 0⟩, ⟨0, 2, 1⟩] =
        runFullAnalysis M0 c3cfg [⟨0, 2, 1⟩, ⟨60000, 1, 0⟩] :=
  ⟨by decide, by decide,
   C3_amended M0 c3cfg [⟨60000, 1, 0⟩, ⟨0, 2, 1⟩] [⟨0, 2, 1⟩, ⟨60000, 1, 0⟩]
     (by decide) (by decide)⟩

/-- Three samples used to refute the bin-count part of C5. -/
def c5res3 : List DataPoint := [⟨0, 1, 0⟩, ⟨60000, 2, 1⟩, ⟨120000, 3, 2⟩]

/-- Counterexample to C5: on a three-sample series the analyzer returns 2
frequency bins, which is not N/2 under either the real or the floored
reading (the loop bound `i < n / 2` uses real division, giving ceil(N/2)
bins for odd N). -/
theorem C5_counterexample :
    (computeSpectralAnalysis M0 c5res3).frequencies.length = 2
    ∧ ((computeSpectralAnalysis M0 c5res3).frequencies.length : Rat) ≠ (c5res3.length : Rat) / 2
    ∧ (computeSpectralAnalysis M0 c5res3).frequencies.length ≠ c5res3.length / 2 := by
  refine ⟨?_, ?_, ?_⟩ <;> decide

/-- C5 (amended): the analyzer returns ceil(N/2) bins, uniformly spaced at
1/N starting from 0 and all strictly below 0.5; and whenever some
positive-frequency bin has positive power, the reported dominant frequency
is a positive-frequency bin of maximal power. -/
theorem C5_amended (M : MathModel) (data : List DataPoint) :
    (computeSpectralAnalysis M data).frequencies.length = (data.length + 1) / 2
    ∧ (∀ i, i < (computeSpectralAnalysis M data).frequencies.length →
        (computeSpectralAnalysis M data).frequencies.getD i 0 = (i : Rat) / (data.length : Rat))
    ∧ (∀ i, i < (computeSpectralAnalysis M data).frequencies.length →
        (computeSpectralAnalysis M data).frequencies.getD i 0 < 1/2)
    ∧ ((∃ i, i < (computeSpectralAnalysis M data).frequencies.length
          ∧ 0 < (computeSpectralAnalysis M data).frequencies.getD i 0
          ∧ 0 < (computeSpectralAnalysis M data).powers.getD i 0) →
        ∃ i, i < (computeSpectralAnalysis M data).frequencies.length
          ∧ (computeSpectralAnalysis M data).dominantFrequency =
              (computeSpectralAnalysis M data).frequencies.getD i 0
          ∧ 0 < (computeSpectralAnalysis M data).frequencies.getD i 0
          ∧ ∀ j, j < (computeSpectralAnalysis M data).frequencies.length →
              0 < (computeSpectralAnalysis M data).frequencies.getD j 0 →
              (computeSpectralAnalysis M data).powers.getD j 0 ≤
                (computeSpectralAnalysis M data).powers.getD i 0) := by
  have hlen : (computeSpectralAnalysis M data).frequencies.length = binCount data.length := by
    rw [spectral_frequencies]
    simp only [List.length_map, List.length_range]
  have hnpos : ∀ i, i < (computeSpectralAnalysis M data).frequencies.length → 0 < data.length := by
    intro i hi
    rw [hlen] at hi
    by_contra hz
    have : data.length = 0 := by omega
    simp [binCount, this] at hi
  have hval : ∀ i, i < (computeSpectralAnalysis M data).frequencies.length →
      (computeSpectralAnalysis M data).frequencies.getD i 0 = (i : Rat) / (data.length : Rat) := by
    intro i hi
    have hn := hnpos i hi
    have hi2 : i < binCount data.length := hlen ▸ hi
    have hibound : i < ((List.range (binCount data.length)).map
        (fun (i : Nat) => (i : Rat) * ((1/2 : Rat) / ((data.length : Rat) / 2)))).length := by
      simpa using hi2
    rw [spectral_frequencies, ratGetD_eq hibound]
    simp only [List.getElem_map, List.getElem_range]
    have hne : (data.length : Rat) ≠ 0 := by
      exact_mod_cast Nat.pos_iff_ne_zero.mp hn
    field_simp
  refine ⟨by rw [hlen]; rfl, hval, ?_, ?_⟩
  · intro i hi
    have hn := hnpos i hi
    rw [hval i hi]
    have hi2 : i < binCount data.length := hlen ▸ hi
    have h2i : 2 * i < data.length := by
      simp only [binCount] at hi2
      omega
    rw [div_lt_div_iff₀ (by exact_mod_cast hn) (by norm_num)]
    linarith [show (2 * i : Rat) < (data.length : Rat) from by exact_mod_cast h2i]
  · intro ⟨i, hi, hfpos, hppos⟩
    have hplen : (computeSpectralAnalysis M data).powers.length =
        (computeSpectralAnalysis M data).frequencies.length := spectral_powers_length M data
    have hziplen : ((computeSpectralAnalysis M data).frequencies.zip
        (computeSpectralAnalysis M data).powers).length =
        (computeSpectralAnalysis M data).frequencies.length := by
      rw [List.length_zip, hplen, min_self]
    obtain ⟨h1, h2, h3⟩ := domFold_spec
      ((computeSpectralAnalysis M data).frequencies.zip (computeSpectralAnalysis M data).powers)
      (0, 0)
    have hmemi : ((computeSpectralAnalysis M data).frequencies.getD i 0,
        (computeSpectralAnalysis M data).powers.getD i 0) ∈
        (computeSpectralAnalysis M data).frequencies.zip (computeSpectralAnalysis M data).powers := by
      rw [ratGetD_eq hi, ratGetD_eq (by rw [hplen]; exact hi)]
      have hib : i < ((computeSpectralAnalysis M data).frequencies.zip
          (computeSpectralAnalysis M data).powers).length := by rw [hziplen]; exact hi
      exact List.mem_iff_getElem.mpr ⟨i, hib, List.getElem_zip⟩
    have hfinal_pos : 0 < (((computeSpectralAnalysis M data).frequencies.zip
        (computeSpectralAnalysis M data).powers).foldl
        (fun acc fp => if fp.2 > acc.1 ∧ fp.1 > 0 then (fp.2, fp.1) else acc) (0, 0)).1 :=
      lt_of_lt_of_le hppos (h2 _ hmemi hfpos)
    rcases h3 with he | ⟨gp, hgp, hgppos, heq⟩
    · rw [he] at hfinal_pos
      exact absurd hfinal_pos (by norm_num)
    · obtain ⟨j, hj, hjeq⟩ := List.mem_iff_getElem.mp hgp
      have hjf : j < (computeSpectralAnalysis M data).frequencies.length := by
        rw [hziplen] at hj
        exact hj
      have hjp : j < (computeSpectralAnalysis M data).powers.length := by
        rw [hplen]
        exact hjf
      have hgpj : gp = ((computeSpectralAnalysis M data).frequencies[j],
          (computeSpectralAnalysis M data).powers[j]) := by
        rw [← hjeq]
        exact List.getElem_zip
      refine ⟨j, hjf, ?_, ?_, ?_⟩
      · rw [spectral_dom, heq, hgpj, ratGetD_eq hjf]
      · rw [ratGetD_eq hjf]
        have := hgppos
        rw [hgpj] at this
        exact this
      · intro k hk hkpos
        have hkp : k < (computeSpectralAnalysis M data).powers.length := by
          rw [hplen]; exact hk
        have hmemk : ((computeSpectralAnalysis M data).frequencies.getD k 0,
            (computeSpectralAnalysis M data).powers.getD k 0) ∈
            (computeSpectralAnalysis M data).frequencies.zip
              (computeSpectralAnalysis M data).powers := by
          rw [ratGetD_eq hk, ratGetD_eq hkp]
          have hkb : k < ((computeSpectralAnalysis M data).frequencies.zip
              (computeSpectralAnalysis M data).powers).length := by rw [hziplen]; exact hk
          exact List.mem_iff_getElem.mpr ⟨k, hkb, List.getElem_zip⟩
        have hkle := h2 _ hmemk hkpos
        rw [heq, hgpj] at hkle
        rw [ratGetD_eq hkp, ratGetD_eq hjp]
        simpa only [ratGetD_eq hkp] using hkle

/-- Four samples with a single unit spike, used to exercise the dominant
frequency scan. -/
def c5res4 : List DataPoint := [⟨0, 0, 0⟩, ⟨60000, 1, 1⟩, ⟨120000, 0, 2⟩, ⟨180000, 0, 3⟩]

/-- Witness for C5 on a four-sample series whose bin 1 has positive power. -/
theorem C5_witness :
    (∃ i, i < (computeSpectralAnalysis qModel c5res4).frequencies.length
      ∧ 0 < (computeSpectralAnalysis qModel c5res4).frequencies.getD i 0
      ∧ 0 < (computeSpectralAnalysis qModel c5res4).powers.getD i 0)
    ∧ (∃ i, i < (computeSpectralAnalysis qModel c5res4).frequencies.length
      ∧ (computeSpectralAnalysis qModel c5res4).dominantFrequency =
          (computeSpectralAnalysis qModel c5res4).frequencies.getD i 0
      ∧ 0 < (computeSpectralAnalysis qModel c5res4).frequencies.getD i 0
      ∧ ∀ j, j < (computeSpectralAnalysis qModel c5res4).frequencies.length →
          0 < (computeSpectralAnalysis qModel c5res4).frequencies.getD j 0 →
          (computeSpectralAnalysis qModel c5res4).powers.getD j 0 ≤
            (computeSpectralAnalysis qModel c5res4).powers.getD i 0) := by
  have hx : ∃ i, i < (computeSpectralAnalysis qModel c5res4).frequencies.length
      ∧ 0 < (computeSpectralAnalysis qModel c5res4).frequencies.getD i 0
      ∧ 0 < (computeSpectralAnalysis qModel c5res4).powers.getD i 0 :=
    ⟨1, by decide, by decide, by decide⟩
  exact ⟨hx, (C5_amended qModel c5res4).2.2.2 hx⟩

/-- C7 (amended): the aliased-activity detector emits events only when the
power at the first spectral bin with frequency at least 0.45 (90 percent of
the Nyquist frequency) exceeds three times the mean spectral power, and every
emitted event is Low-confidence and spans one excessive moving-variance
window, from its start sample to index `min (i + 10) (length - 1)`; when it
triggers it emits exactly one event per variance value above the two-sigma
threshold. -/
theorem C7_amended (M : MathModel) (residuals : List DataPoint) :
    (detectAliasedActivity M residuals ≠ [] →
      ∃ k, k < (computeSpectralAnalysis M residuals).frequencies.length
        ∧ (9/20 : Rat) ≤ (computeSpectralAnalysis M residuals).frequencies.getD k 0
        ∧ (∀ j < k, ¬ ((9/20 : Rat) ≤ (computeSpectralAnalysis M residuals).frequencies.getD j 0))
        ∧ (computeSpectralAnalysis M residuals).powers.getD k 0 >
            listSum (computeSpectralAnalysis M residuals).powers /
              ((computeSpectralAnalysis M residuals).powers.length : Rat) * 3)
    ∧ (∀ e ∈ detectAliasedActivity M residuals,
        e.confidence = Confidence.Low
        ∧ ∃ i, i < (calculateMovingVariance residuals 10).length
          ∧ calculateVarianceThreshold M (calculateMovingVariance residuals 10) <
              (calculateMovingVariance residuals 10).getD i 0
          ∧ e.startTime = (residuals.getD i dpDefault).timestamp
          ∧ e.endTime = some ((residuals.getD (min (i + 10) (residuals.length - 1))
              dpDefault).timestamp))
    ∧ (detectAliasedActivity M residuals ≠ [] →
        (detectAliasedActivity M residuals).length =
          ((calculateMovingVariance residuals 10).filter
            (fun v => decide (v > calculateVarianceThreshold M
              (calculateMovingVariance residuals 10)))).length) := by
  have h920 : ((1/2 : Rat) * (9/10)) = 9/20 := by norm_num
  rcases detectAliased_cases M residuals with hempty | ⟨k, hfind, hgate, heq⟩
  · refine ⟨fun hne => absurd hempty hne, ?_, fun hne => absurd hempty hne⟩
    intro e he
    rw [hempty] at he
    simp at he
  · refine ⟨fun _ => ?_, ?_, fun _ => ?_⟩
    · obtain ⟨_, hlt, hp, hprev⟩ := findIdxQ_spec _ 0 k hfind
      have hk0 : k - 0 = k := rfl
      rw [hk0] at hlt hp hprev
      refine ⟨k, hlt, ?_, ?_, hgate⟩
      · have hp2 := of_decide_eq_true hp
        rwa [h920] at hp2
      · intro j hj hge
        rw [← h920] at hge
        exact of_decide_eq_false (hprev j hj) hge
    · intro e he
      rw [heq] at he
      obtain ⟨kiv, hkiv, rfl⟩ := List.mem_map.mp he
      obtain ⟨k1, iv⟩ := kiv
      have henum := List.mem_enum hkiv
      have hivmem : iv ∈ (calculateMovingVariance residuals 10).enum.filter
          (fun iv => decide (iv.2 >
            calculateVarianceThreshold M (calculateMovingVariance residuals 10))) := by
        rw [henum.2]
        exact List.getElem_mem henum.1
      have hfil := List.mem_filter.mp hivmem
      obtain ⟨i, v⟩ := iv
      have henum2 := List.mem_enum hfil.1
      have hvgt : calculateVarianceThreshold M (calculateMovingVariance residuals 10) < v :=
        of_decide_eq_true hfil.2
      refine ⟨rfl, i, henum2.1, ?_, rfl, rfl⟩
      rw [ratGetD_eq henum2.1, ← henum2.2]
      exact hvgt
    · rw [heq]
      simp only [List.length_map, List.enum, List.enumFrom_length]
      exact filter_enumFrom_length
        (fun v => decide (v > calculateVarianceThreshold M (calculateMovingVariance residuals 10)))
        (calculateMovingVariance residuals 10) 0

/-- Residual series of the C7 scenario: 40 one-minute samples, zero except
for four spikes at indices 0, 10, 20 and 30.  The spike positions are
quarter-period multiples, so every spectral term reads the model cosine and
sine only at quarter-turn points, where `qModel` agrees with the real
functions; the spike values make the variance of the moving-variance list a
perfect rational square, so the model square root is exact as well. -/
def c7res : List DataPoint :=
  (List.range 40).map fun (i : Nat) =>
    ⟨60000 * (i : Int),
     if i = 0 then 13/4 else if i = 10 then -5/2 else if i = 20 then 11/4
     else if i = 30 then -3 else 0,
     (i : Int)⟩

/-- Expected frequency bins of the C7 spectrum. -/
def c7freqs : List Rat :=
  (List.range 20).map fun (i : Nat) => (i : Rat) / 40

/-- Expected powers of the C7 spectrum: 23/80 on bins congruent to 2 mod 4
(the class of the gate bin 18), zero on bins congruent to 3 mod 4 (the class
of the last bin 19, the one nearest the Nyquist frequency), 1/80 on bins
congruent to 0 and 1/40 on bins congruent to 1. -/
def c7powers : List Rat :=
  (List.range 20).map fun i =>
    if i % 4 = 0 then 1/80 else if i % 4 = 1 then 1/40
    else if i % 4 = 2 then 23/80 else 0

/-- Expected moving variance of the C7 residuals: every 10-sample window
contains exactly one spike, whose squared magnitude sets the value. -/
def c7variance : List Rat :=
  (List.range 30).map fun i =>
    if i = 0 then 1521/1600
    else if i ≤ 10 then 9/16
    else if i ≤ 20 then 1089/1600
    else 81/100

theorem c7freq_eval : (computeSpectralAnalysis qModel c7res).frequencies = c7freqs := by
  decide

theorem c7var_eval : calculateMovingVariance c7res 10 = c7variance := by
  decide

theorem c7pow_eval : (computeSpectralAnalysis qModel c7res).powers = c7powers := by
  decide

theorem c7detect_nonempty : detectAliasedActivity qModel c7res ≠ [] := by
  simp only [detectAliasedActivity, c7var_eval, c7freq_eval, c7pow_eval]
  decide

/-- Counterexample to C7: on the engineered 40-sample residual the detector
emits an event, although the power at the spectral bin nearest the Nyquist
frequency - the last bin, index 19, the unique minimizer of the distance to
0.5 - is zero and does not exceed three times the mean power.  The gating
bin of the source is the first bin at or above 0.45, index 18, which lies
in a different residue class. -/
theorem C7_counterexample :
    detectAliasedActivity qModel c7res ≠ []
    ∧ (∀ i, i < (computeSpectralAnalysis qModel c7res).frequencies.length →
        |(computeSpectralAnalysis qModel c7res).frequencies.getD 19 0 - 1/2|
          ≤ |(computeSpectralAnalysis qModel c7res).frequencies.getD i 0 - 1/2|)
    ∧ ¬ ((computeSpectralAnalysis qModel c7res).powers.getD 19 0 >
        listSum (computeSpectralAnalysis qModel c7res).powers /
          ((computeSpectralAnalysis qModel c7res).powers.length : Rat) * 3) := by
  refine ⟨c7detect_nonempty, ?_, ?_⟩
  · simp only [c7freq_eval]
    decide
  · simp only [c7pow_eval]
    decide

/-- Witness for C7: the gate conclusion of the amended claim holds at the
concrete C7 input. -/
theorem C7_witness :
    ∃ k, k < (computeSpectralAnalysis qModel c7res).frequencies.length
      ∧ (9/20 : Rat) ≤ (computeSpectralAnalysis qModel c7res).frequencies.getD k 0
      ∧ (∀ j < k, ¬ ((9/20 : Rat) ≤ (computeSpectralAnalysis qModel c7res).frequencies.getD j 0))
      ∧ (computeSpectralAnalysis qModel c7res).powers.getD k 0 >
          listSum (computeSpectralAnalysis qModel c7res).powers /
            ((computeSpectralAnalysis qModel c7res).powers.length : Rat) * 3 :=
  (C7_amended qModel c7res).1 c7detect_nonempty

end Claims

end Poseidon
